import Mathlib

/-
  Verification development for the snake game in `src/main.rs`.

  The game state lives in three Bevy components/resources: `Snake`
  (a `Vec<IVec3>` of segments, tail first, head last, plus a `Direction`),
  `Food` (a single `IVec3` position), and the tilemap (rendering only,
  out of scope).  Every `IVec3` the program ever constructs has `z = 0`
  (`ivec3(x, y, 0)` everywhere, and the movement code only touches
  `x`/`y`), so positions are embedded as pairs of integers.

  Randomness (`rng.random_range(0..TILE_COLUMNS)` paired with
  `0..TILE_ROWS`) is embedded by passing the stream of sampled
  `(x, y)` pairs explicitly as a `List (Fin 12 × Fin 12)`; the
  unbounded rejection-sampling recursion of `generate_food` becomes
  structural recursion on that list, returning `none` when the list is
  exhausted (the real program would keep sampling).
-/

namespace SnakeGame

/-- `TILE_ROWS` from main.rs. -/
def TILE_ROWS : Int := 12

/-- `TILE_COLUMNS` from main.rs. -/
def TILE_COLUMNS : Int := 12

/-- A grid position: the `x`/`y` components of the `IVec3` tile coordinates
(`z` is identically 0 in the program). -/
structure Pos where
  x : Int
  y : Int
deriving DecidableEq

/-- `enum Direction { Up, Down, Left, Right }` from main.rs. -/
inductive Direction where
  | Up
  | Down
  | Left
  | Right
deriving DecidableEq

/-- `struct Snake { segments: Vec<IVec3>, direction: Direction }`. -/
structure Snake where
  segments : List Pos
  direction : Direction
deriving DecidableEq

/-- `Snake::head`: `*self.segments.last().expect("Snake without head")`.
The `expect` panic on an empty body is unreachable (the body is never
empty); the embedding supplies a default for totality. -/
def Snake.head (s : Snake) : Pos :=
  s.segments.getLastD ⟨0, 0⟩

/-- The head offset one cell in a direction: the shared `match` of
`Snake::grow` and of the candidate-head computation in `movment`
(`Up` adds 1 to `y`, `Down` subtracts, `Left` subtracts from `x`,
`Right` adds). -/
def nextPos (d : Direction) (p : Pos) : Pos :=
  match d with
  | .Up => ⟨p.x, p.y + 1⟩
  | .Down => ⟨p.x, p.y - 1⟩
  | .Left => ⟨p.x - 1, p.y⟩
  | .Right => ⟨p.x + 1, p.y⟩

/-- `Snake::grow`: pushes the head offset by the current direction onto
the end of `segments`. -/
def Snake.grow (s : Snake) : Snake :=
  { s with segments := s.segments ++ [nextPos s.direction s.head] }

/-- The whole mutable game state touched by a tick: the `Snake` component
and the `Food` component (`struct Food { position: IVec3 }`). -/
structure GameState where
  snake : Snake
  food : Pos
deriving DecidableEq

/-- The candidate head `new_pos` computed at the top of `movment`:
`snake.head()` moved one cell in `snake.direction`. -/
def new_pos (st : GameState) : Pos :=
  nextPos st.snake.direction st.snake.head

/-- The collision test `is_over` from `movment`:
`snake.segments.contains(&new_pos) || new_pos.x < 0 || new_pos.x >= TILE_COLUMNS
 || new_pos.y < 0 || new_pos.y >= TILE_ROWS`. -/
def is_over (c : Pos) (segments : List Pos) : Bool :=
  decide (c ∈ segments) || decide (c.x < 0) || decide (c.x ≥ TILE_COLUMNS)
    || decide (c.y < 0) || decide (c.y ≥ TILE_ROWS)

/-- The in-place left shift in `update_snake`:
`for i in 0..len-1 { segments[i] = segments[i+1] }`.  Each slot takes the
original value of its successor; the last slot keeps its value. -/
def shiftLeft : List Pos → List Pos
  | [] => []
  | [a] => [a]
  | _ :: b :: rest => b :: shiftLeft (b :: rest)

/-- `update_snake` (state part only; tile drawing is rendering):
shift every slot left, `pop` the last element, `push new_pos`. -/
def update_snake (np : Pos) (segments : List Pos) : List Pos :=
  (shiftLeft segments).dropLast ++ [np]

/-- `generate_food`: return `None` when `segments.len()` fills the board,
otherwise sample a cell in `[0,TILE_COLUMNS)×[0,TILE_ROWS)` and resample
while it hits `segments`.  The sample stream is explicit; an exhausted
stream yields `none` (the program would sample forever). -/
def generate_food (segments : List Pos) (samples : List (Fin 12 × Fin 12)) :
    Option Pos :=
  if segments.length = TILE_ROWS.toNat * TILE_COLUMNS.toNat then none
  else
    match samples with
    | [] => none
    | s :: rest =>
        let food : Pos := ⟨(s.1.val : Int), (s.2.val : Int)⟩
        if food ∈ segments then generate_food segments rest
        else some food

/-- One firing of the `movment` system (the body of the
`timer.finished()` branch): compute `new_pos`, bail out when `is_over`,
otherwise on food grow and regenerate the food (the `Option::map` keeps
the old food when generation fails), and finally `update_snake`. -/
def movment (st : GameState) (samples : List (Fin 12 × Fin 12)) : GameState :=
  if is_over (new_pos st) st.snake.segments then st
  else if new_pos st = st.food then
    { snake := { segments := update_snake (new_pos st) st.snake.grow.segments,
                 direction := st.snake.direction },
      food := (generate_food st.snake.grow.segments samples).getD st.food }
  else
    { snake := { segments := update_snake (new_pos st) st.snake.segments,
                 direction := st.snake.direction },
      food := st.food }

/-- The four `just_pressed` arrow-key edges read by the `turn` system. -/
structure Input where
  up : Bool
  down : Bool
  left : Bool
  right : Bool
deriving DecidableEq

/-- The `turn` system on one snake: match on the current direction; in the
vertical arm the `ArrowLeft` check runs before the `ArrowRight` check
(so a later assignment wins), and symmetrically in the horizontal arm. -/
def turnFun (i : Input) (d : Direction) : Direction :=
  match d with
  | .Up | .Down =>
      let d1 := if i.left then Direction.Left else d
      if i.right then Direction.Right else d1
  | .Left | .Right =>
      let d1 := if i.up then Direction.Up else d
      if i.down then Direction.Down else d1

/-- The `startup` system (state part only): segments `[(0,0),(0,1)]`,
head `(0,2)` pushed last, direction `Up`, food from `generate_food`
(whose `expect` panic is embedded as `none`). -/
def startup (samples : List (Fin 12 × Fin 12)) : Option GameState :=
  let head : Pos := ⟨0, 2⟩
  let segments : List Pos := [⟨0, 0⟩, ⟨0, 1⟩] ++ [head]
  match generate_food segments samples with
  | none => none
  | some food =>
      some { snake := { segments := segments, direction := Direction.Up },
             food := food }

/-- States the running program can be in: a `startup` result, followed by
any interleaving of `turn` firings (every frame) and `movment` firings
(when the timer finishes). -/
inductive Reachable : GameState → Prop
  | init (samples : List (Fin 12 × Fin 12)) (st : GameState) :
      startup samples = some st → Reachable st
  | turnStep (i : Input) (st : GameState) :
      Reachable st →
      Reachable { st with
        snake := { st.snake with direction := turnFun i st.snake.direction } }
  | tickStep (samples : List (Fin 12 × Fin 12)) (st : GameState) :
      Reachable st → Reachable (movment st samples)

/-- 180° opposite of a heading (specification vocabulary for C9/C10). -/
def opposite : Direction → Direction
  | .Up => .Down
  | .Down => .Up
  | .Left => .Right
  | .Right => .Left

/-- Fold a list of food-sample streams through successive `movment` ticks. -/
def runTicks (st : GameState) : List (List (Fin 12 × Fin 12)) → GameState
  | [] => st
  | samples :: rest => runTicks (movment st samples) rest

/-- A run of ticks in which every tick is neither blocked nor eats food. -/
inductive SafeRun : GameState → List (List (Fin 12 × Fin 12)) → Prop
  | nil (st : GameState) : SafeRun st []
  | cons (st : GameState) (samples : List (Fin 12 × Fin 12))
      (rest : List (List (Fin 12 × Fin 12))) :
      is_over (new_pos st) st.snake.segments = false →
      new_pos st ≠ st.food →
      SafeRun (movment st samples) rest →
      SafeRun st (samples :: rest)

/-- Membership in the playing field `[0,TILE_COLUMNS)×[0,TILE_ROWS)`. -/
def InGrid (p : Pos) : Prop :=
  0 ≤ p.x ∧ p.x < TILE_COLUMNS ∧ 0 ≤ p.y ∧ p.y < TILE_ROWS

/-- The finite set of all grid cells. -/
def gridFinset : Finset Pos :=
  ((Finset.Icc (0 : Int) (TILE_COLUMNS - 1)) ×ˢ
    (Finset.Icc (0 : Int) (TILE_ROWS - 1))).image (fun q => ⟨q.1, q.2⟩)

/-- The startup state when the food sampler returns `(0,3)`: the spec
scenario "same snake, food placed at (0,3)". -/
def S0 : GameState :=
  { snake := { segments := [⟨0, 0⟩, ⟨0, 1⟩, ⟨0, 2⟩], direction := .Up },
    food := ⟨0, 3⟩ }

/-- The startup state when the food sampler returns `(5,5)`: the spec
scenario "grid 12×12, snake = [(0,0),(0,1),(0,2)] heading Up, food at (5,5)". -/
def T0 : GameState :=
  { snake := { segments := [⟨0, 0⟩, ⟨0, 1⟩, ⟨0, 2⟩], direction := .Up },
    food := ⟨5, 5⟩ }

/-- `T0` after a `turn` firing with an `ArrowLeft` edge. -/
def T1 : GameState :=
  { snake := { segments := [⟨0, 0⟩, ⟨0, 1⟩, ⟨0, 2⟩], direction := .Left },
    food := ⟨5, 5⟩ }

/-- `T1` after a `turn` firing with an `ArrowDown` edge. -/
def T2 : GameState :=
  { snake := { segments := [⟨0, 0⟩, ⟨0, 1⟩, ⟨0, 2⟩], direction := .Down },
    food := ⟨5, 5⟩ }

/-- A state whose head `(0,11)` heading `Up` gives the blocked candidate
`(0,12)`: the spec scenario "snake head at (0,11) heading Up". -/
def B0 : GameState :=
  { snake := { segments := [⟨0, 9⟩, ⟨0, 10⟩, ⟨0, 11⟩], direction := .Up },
    food := ⟨5, 5⟩ }

/-- A one-element sample stream yielding `(5,5)`. -/
def sample55 : List (Fin 12 × Fin 12) := [((5 : Fin 12), (5 : Fin 12))]

/-- A one-element sample stream yielding `(0,3)`. -/
def sample03 : List (Fin 12 × Fin 12) := [((0 : Fin 12), (3 : Fin 12))]

/-- An `ArrowLeft` key edge. -/
def leftKey : Input := { up := false, down := false, left := true, right := false }

/-- An `ArrowDown` key edge. -/
def downKey : Input := { up := false, down := true, left := false, right := false }

/-! ### Helper lemmas -/

lemma shiftLeft_eq (a : Pos) (l : List Pos) :
    shiftLeft (a :: l) = l ++ [l.getLastD a] := by
  induction l generalizing a with
  | nil => rfl
  | cons b rest ih =>
      have h : shiftLeft (a :: b :: rest) = b :: shiftLeft (b :: rest) := rfl
      rw [h, ih b, List.getLastD_cons]
      rfl

lemma update_snake_eq (c : Pos) (segs : List Pos) (h : segs ≠ []) :
    update_snake c segs = segs.tail ++ [c] := by
  cases segs with
  | nil => exact absurd rfl h
  | cons a l =>
      unfold update_snake
      rw [shiftLeft_eq, List.dropLast_concat]
      rfl

lemma is_over_false_not_mem {c : Pos} {segs : List Pos}
    (h : is_over c segs = false) : c ∉ segs := by
  unfold is_over at h
  simp only [Bool.or_eq_false_iff, decide_eq_false_iff_not] at h
  exact h.1.1.1.1

lemma grow_segments (st : GameState) :
    st.snake.grow.segments = st.snake.segments ++ [new_pos st] := rfl

lemma movment_of_blocked (st : GameState) (samples : List (Fin 12 × Fin 12))
    (h : is_over (new_pos st) st.snake.segments = true) :
    movment st samples = st := by
  unfold movment
  rw [h]
  rfl

lemma movment_of_no_food (st : GameState) (samples : List (Fin 12 × Fin 12))
    (hb : is_over (new_pos st) st.snake.segments = false)
    (hf : new_pos st ≠ st.food) :
    movment st samples =
      { snake := { segments := update_snake (new_pos st) st.snake.segments,
                   direction := st.snake.direction },
        food := st.food } := by
  unfold movment
  rw [hb, if_neg hf]
  rfl

lemma movment_of_food (st : GameState) (samples : List (Fin 12 × Fin 12))
    (hb : is_over (new_pos st) st.snake.segments = false)
    (hf : new_pos st = st.food) :
    movment st samples =
      { snake := { segments := update_snake (new_pos st) st.snake.grow.segments,
                   direction := st.snake.direction },
        food := (generate_food st.snake.grow.segments samples).getD st.food } := by
  unfold movment
  rw [hb, if_pos hf]
  rfl

lemma generate_food_not_mem {segs : List Pos} {samples : List (Fin 12 × Fin 12)}
    {p : Pos} (h : generate_food segs samples = some p) : p ∉ segs := by
  induction samples with
  | nil =>
      simp only [generate_food] at h
      split_ifs at h
  | cons s rest ih =>
      simp only [generate_food] at h
      split_ifs at h with hlen hm
      · exact ih h
      · rw [Option.some_inj] at h
        subst h
        exact hm

lemma update_snake_getLast (np : Pos) (segs : List Pos) :
    (update_snake np segs).getLast? = some np :=
  List.getLast?_concat _

lemma nodup_step (st : GameState) (samples : List (Fin 12 × Fin 12))
    (hnd : st.snake.segments.Nodup) (hne : st.snake.segments ≠ [])
    (hb : is_over (new_pos st) st.snake.segments = false)
    (hf : new_pos st ≠ st.food) :
    (movment st samples).snake.segments.Nodup ∧
    (movment st samples).snake.segments ≠ [] := by
  have hmem := is_over_false_not_mem hb
  rw [movment_of_no_food st samples hb hf]
  show (update_snake (new_pos st) st.snake.segments).Nodup ∧
    update_snake (new_pos st) st.snake.segments ≠ []
  rw [update_snake_eq _ _ hne]
  constructor
  · refine List.Nodup.append ?_ (List.nodup_singleton _) ?_
    · exact List.Nodup.sublist (List.tail_sublist _) hnd
    · intro x hx hx2
      rw [List.mem_singleton] at hx2
      subst hx2
      exact hmem (List.mem_of_mem_tail hx)
  · simp

lemma pos_mk_injective :
    Function.Injective (fun q : Int × Int => (⟨q.1, q.2⟩ : Pos)) := by
  intro a b h
  cases a
  cases b
  simpa [Pos.mk.injEq, Prod.ext_iff] using h

lemma mem_gridFinset {p : Pos} : p ∈ gridFinset ↔ InGrid p := by
  unfold gridFinset InGrid TILE_COLUMNS TILE_ROWS
  simp only [Finset.mem_image, Finset.mem_product, Finset.mem_Icc, Prod.exists]
  constructor
  · rintro ⟨a, b, ⟨⟨h1, h2⟩, h3, h4⟩, rfl⟩
    exact ⟨h1, by show a < 12; omega, h3, by show b < 12; omega⟩
  · rintro ⟨h1, h2, h3, h4⟩
    exact ⟨p.x, p.y, ⟨⟨h1, by omega⟩, h3, by omega⟩, rfl⟩

lemma gridFinset_card : gridFinset.card = 144 := by
  unfold gridFinset
  rw [Finset.card_image_of_injective _ pos_mk_injective, Finset.card_product]
  simp [Int.card_Icc, TILE_COLUMNS, TILE_ROWS]

/-! ### Claim theorems -/

/-- C1 counterexample: the startup state with food at `(0,3)` is a
reachable game state, the tick from it is not blocked, yet after that
single (food-eating) tick the body holds `(0,3)` twice: `update_snake`
runs on the already-grown body, dropping the old tail and appending the
candidate head a second time. -/
theorem snake_nodup_counterexample :
    Reachable S0 ∧
    is_over (new_pos S0) S0.snake.segments = false ∧
    ¬ (movment S0 sample55).snake.segments.Nodup :=
  ⟨Reachable.init sample03 S0 (by decide), by decide, by decide⟩

/-- C1 amended: for every state whose body is duplicate-free and nonempty,
every sequence of non-colliding ticks on which no food is eaten keeps the
body free of duplicate positions (a food-eating tick instead duplicates
the new head, see the counterexample). -/
theorem snake_nodup_safe_run :
    ∀ (st : GameState) (l : List (List (Fin 12 × Fin 12))), SafeRun st l →
      st.snake.segments.Nodup → st.snake.segments ≠ [] →
      (runTicks st l).snake.segments.Nodup := by
  intro st l hs
  induction hs with
  | nil st =>
      intro hnd _
      exact hnd
  | cons st samples rest hb hf _ ih =>
      intro hnd hne
      have h := nodup_step st samples hnd hne hb hf
      exact ih h.1 h.2

/-- Witness for the amended C1: two safe ticks from the `(5,5)`-food
startup state keep the body duplicate-free. -/
theorem snake_nodup_safe_run_witness :
    SafeRun T0 [[], []] ∧ T0.snake.segments.Nodup ∧ T0.snake.segments ≠ [] ∧
    (runTicks T0 [[], []]).snake.segments.Nodup := by
  have hs : SafeRun T0 [[], []] :=
    SafeRun.cons _ _ _ (by decide) (by decide)
      (SafeRun.cons _ _ _ (by decide) (by decide) (SafeRun.nil _))
  exact ⟨hs, by decide, by decide,
    snake_nodup_safe_run T0 [[], []] hs (by decide) (by decide)⟩

/-- C2 counterexample: in the spec scenario (snake `[(0,0),(0,1),(0,2)]`
heading Up, food at `(0,3)`) the growth tick does not retain the tail;
the body becomes `[(0,1),(0,2),(0,3),(0,3)]`, not
`[(0,0),(0,1),(0,2),(0,3)]`. -/
theorem growth_tick_counterexample :
    new_pos S0 = S0.food ∧
    is_over (new_pos S0) S0.snake.segments = false ∧
    (movment S0 sample55).snake.segments ≠
      [⟨0, 0⟩, ⟨0, 1⟩, ⟨0, 2⟩, ⟨0, 3⟩] ∧
    (movment S0 sample55).snake.segments =
      [⟨0, 1⟩, ⟨0, 2⟩, ⟨0, 3⟩, ⟨0, 3⟩] := by
  refine ⟨by decide, by decide, by decide, by decide⟩

/-- C2 amended: on a growth tick (candidate not blocked, equal to food)
the new body is the old body with the tail dropped and the candidate head
appended twice; the new head equals the candidate, and whenever food
generation succeeds the new food lies outside the grown body. -/
theorem movment_growth_spec (st : GameState) (samples : List (Fin 12 × Fin 12))
    (hne : st.snake.segments ≠ [])
    (hb : is_over (new_pos st) st.snake.segments = false)
    (hf : new_pos st = st.food) :
    (movment st samples).snake.segments =
      st.snake.segments.tail ++ [new_pos st, new_pos st] ∧
    (movment st samples).snake.segments.getLast? = some (new_pos st) ∧
    ∀ q, generate_food (st.snake.segments ++ [new_pos st]) samples = some q →
      (movment st samples).food = q ∧ q ∉ st.snake.segments ++ [new_pos st] := by
  rw [movment_of_food st samples hb hf]
  refine ⟨?_, ?_, ?_⟩
  · show update_snake (new_pos st) st.snake.grow.segments = _
    rw [grow_segments, update_snake_eq _ _ (by simp)]
    cases hseg : st.snake.segments with
    | nil => exact absurd hseg hne
    | cons a l => simp
  · exact update_snake_getLast _ _
  · intro q hq
    constructor
    · show (generate_food st.snake.grow.segments samples).getD st.food = q
      rw [grow_segments, hq]
      rfl
    · exact generate_food_not_mem hq

/-- Witness for the amended C2: the `(0,3)`-food scenario, with the fresh
food sampled at `(5,5)`. -/
theorem movment_growth_spec_witness :
    S0.snake.segments ≠ [] ∧
    is_over (new_pos S0) S0.snake.segments = false ∧
    new_pos S0 = S0.food ∧
    (movment S0 sample55).snake.segments =
      S0.snake.segments.tail ++ [new_pos S0, new_pos S0] ∧
    (movment S0 sample55).food = (⟨5, 5⟩ : Pos) ∧
    (⟨5, 5⟩ : Pos) ∉ S0.snake.segments ++ [new_pos S0] := by
  have h := movment_growth_spec S0 sample55 (by decide) (by decide) (by decide)
  have h2 := h.2.2 ⟨5, 5⟩ (by decide)
  exact ⟨by decide, by decide, by decide, h.1, h2.1, h2.2⟩

/-- C3 counterexample: `startup` creates a snake with 3 segments
(`[(0,0),(0,1)]` plus the pushed head `(0,2)`), not 2. -/
theorem startup_length_counterexample :
    (startup sample55).map (fun st => st.snake.segments.length) = some 3 ∧
    (startup sample55).map (fun st => st.snake.segments.length) ≠ some 2 := by
  refine ⟨by decide, by decide⟩

/-- C3 amended: whenever `startup` succeeds, the created snake has exactly
3 segments, heading `Up`, pairwise distinct cells, and the food lies on
none of them. -/
theorem startup_spec (samples : List (Fin 12 × Fin 12)) (st : GameState)
    (h : startup samples = some st) :
    st.snake.segments.length = 3 ∧
    st.snake.direction = Direction.Up ∧
    st.snake.segments.Nodup ∧
    st.food ∉ st.snake.segments := by
  unfold startup at h
  dsimp only at h
  cases hg : generate_food ([⟨0, 0⟩, ⟨0, 1⟩] ++ [⟨0, 2⟩]) samples with
  | none =>
      rw [hg] at h
      exact absurd h (by simp)
  | some f =>
      rw [hg] at h
      rw [Option.some_inj] at h
      subst h
      refine ⟨?_, rfl, ?_, generate_food_not_mem hg⟩
      · show ([Pos.mk 0 0, Pos.mk 0 1] ++ [Pos.mk 0 2]).length = 3
        decide
      · show ([Pos.mk 0 0, Pos.mk 0 1] ++ [Pos.mk 0 2]).Nodup
        decide

/-- Witness for the amended C3: the startup with the food sampled at
`(5,5)`. -/
theorem startup_spec_witness :
    startup sample55 = some T0 ∧
    T0.snake.segments.length = 3 ∧
    T0.snake.direction = Direction.Up ∧
    T0.snake.segments.Nodup ∧
    T0.food ∉ T0.snake.segments := by
  have h := startup_spec sample55 T0 (by decide)
  exact ⟨by decide, h.1, h.2.1, h.2.2.1, h.2.2.2⟩

/-- C4: on a non-blocked tick the body length is unchanged when the
candidate head differs from the food, and grows by exactly 1 when it
equals the food. -/
theorem movment_length_spec (st : GameState) (samples : List (Fin 12 × Fin 12))
    (hne : st.snake.segments ≠ [])
    (hb : is_over (new_pos st) st.snake.segments = false) :
    (new_pos st ≠ st.food →
      (movment st samples).snake.segments.length = st.snake.segments.length) ∧
    (new_pos st = st.food →
      (movment st samples).snake.segments.length =
        st.snake.segments.length + 1) := by
  have hpos : 0 < st.snake.segments.length := List.length_pos.mpr hne
  constructor
  · intro hf
    rw [movment_of_no_food st samples hb hf]
    show (update_snake (new_pos st) st.snake.segments).length = _
    rw [update_snake_eq _ _ hne, List.length_append, List.length_tail]
    simp
    omega
  · intro hf
    rw [movment_of_food st samples hb hf]
    show (update_snake (new_pos st) st.snake.grow.segments).length = _
    rw [grow_segments, update_snake_eq _ _ (by simp),
      List.length_append, List.length_tail, List.length_append]
    simp

/-- Witness for C4 at the `(5,5)`-food startup state. -/
theorem movment_length_spec_witness :
    T0.snake.segments ≠ [] ∧
    is_over (new_pos T0) T0.snake.segments = false ∧
    ((new_pos T0 ≠ T0.food →
      (movment T0 []).snake.segments.length = T0.snake.segments.length) ∧
     (new_pos T0 = T0.food →
      (movment T0 []).snake.segments.length = T0.snake.segments.length + 1)) :=
  ⟨by decide, by decide, movment_length_spec T0 [] (by decide) (by decide)⟩

/-- C5: on a non-growth tick every body cell takes the position of its
successor and the candidate head is appended as the new last element
(the head), while food and heading stay put. -/
theorem movment_translate_spec (st : GameState) (samples : List (Fin 12 × Fin 12))
    (hne : st.snake.segments ≠ [])
    (hb : is_over (new_pos st) st.snake.segments = false)
    (hf : new_pos st ≠ st.food) :
    (movment st samples).snake.segments =
      st.snake.segments.tail ++ [new_pos st] ∧
    (movment st samples).snake.segments.getLast? = some (new_pos st) ∧
    (movment st samples).food = st.food ∧
    (movment st samples).snake.direction = st.snake.direction := by
  rw [movment_of_no_food st samples hb hf]
  exact ⟨update_snake_eq _ _ hne, update_snake_getLast _ _, rfl, rfl⟩

/-- Witness for C5: the spec scenario, `[(0,0),(0,1),(0,2)]` heading Up
with food at `(5,5)` becomes `[(0,1),(0,2),(0,3)]`. -/
theorem movment_translate_spec_witness :
    T0.snake.segments ≠ [] ∧
    is_over (new_pos T0) T0.snake.segments = false ∧
    new_pos T0 ≠ T0.food ∧
    ((movment T0 []).snake.segments = T0.snake.segments.tail ++ [new_pos T0] ∧
     (movment T0 []).snake.segments.getLast? = some (new_pos T0) ∧
     (movment T0 []).food = T0.food ∧
     (movment T0 []).snake.direction = T0.snake.direction) ∧
    (movment T0 []).snake.segments = [⟨0, 1⟩, ⟨0, 2⟩, ⟨0, 3⟩] :=
  ⟨by decide, by decide, by decide,
    movment_translate_spec T0 [] (by decide) (by decide) (by decide), by decide⟩

/-- C6: `is_over` is true exactly when the candidate hits the current
(pre-move) body or leaves `[0,12)×[0,12)`; in particular a candidate equal
to the current tail cell (the first list element) is always blocked. -/
theorem is_over_spec (c : Pos) (segs : List Pos) :
    (is_over c segs = true ↔
      (c ∈ segs ∨
        ¬ (0 ≤ c.x ∧ c.x < TILE_COLUMNS ∧ 0 ≤ c.y ∧ c.y < TILE_ROWS))) ∧
    is_over c (c :: segs) = true := by
  constructor
  · unfold is_over TILE_COLUMNS TILE_ROWS
    simp only [Bool.or_eq_true, decide_eq_true_eq]
    constructor
    · intro h
      rcases h with ((((h | h) | h) | h) | h)
      · exact Or.inl h
      all_goals exact Or.inr (by omega)
    · intro h
      rcases h with h | h
      · exact Or.inl (Or.inl (Or.inl (Or.inl h)))
      · rcases Int.lt_or_le c.x 0 with hx | hx
        · exact Or.inl (Or.inl (Or.inl (Or.inr hx)))
        · rcases Int.le_or_lt 12 c.x with hx2 | hx2
          · exact Or.inl (Or.inl (Or.inr hx2))
          · rcases Int.lt_or_le c.y 0 with hy | hy
            · exact Or.inl (Or.inr hy)
            · exact Or.inr (by omega)
  · simp [is_over]

/-- C7: a blocked tick mutates nothing: the whole game state (body,
heading and food) is returned unchanged. -/
theorem movment_blocked_spec (st : GameState) (samples : List (Fin 12 × Fin 12))
    (hb : is_over (new_pos st) st.snake.segments = true) :
    movment st samples = st :=
  movment_of_blocked st samples hb

/-- Witness for C7: the head-at-`(0,11)`-heading-Up scenario, whose
candidate `(0,12)` leaves the grid. -/
theorem movment_blocked_spec_witness :
    is_over (new_pos B0) B0.snake.segments = true ∧ movment B0 [] = B0 :=
  ⟨by decide, movment_blocked_spec B0 [] (by decide)⟩

/-- C8: for a duplicate-free list of occupied in-grid cells,
`generate_food` never returns an occupied cell, and it returns no
placement (for every sample stream) exactly when the occupied set fills
all `144` cells. -/
theorem generate_food_spec (occupied : List Pos)
    (hnd : occupied.Nodup) (hg : ∀ p ∈ occupied, InGrid p) :
    (∀ samples p, generate_food occupied samples = some p → p ∉ occupied) ∧
    ((∀ samples, generate_food occupied samples = none) ↔
      occupied.toFinset.card = 144) := by
  have hconst : TILE_ROWS.toNat * TILE_COLUMNS.toNat = 144 := by decide
  have hcard_len : occupied.toFinset.card = occupied.length :=
    List.toFinset_card_of_nodup hnd
  refine ⟨fun samples p h => generate_food_not_mem h, ?_, ?_⟩
  · intro hall
    by_contra hne
    have hnsub : ¬ gridFinset ⊆ occupied.toFinset := by
      intro hcontra
      have hge := Finset.card_le_card hcontra
      have hle : occupied.toFinset.card ≤ 144 := by
        have hsub : occupied.toFinset ⊆ gridFinset := by
          intro p hp
          rw [List.mem_toFinset] at hp
          exact mem_gridFinset.mpr (hg p hp)
        have := Finset.card_le_card hsub
        rwa [gridFinset_card] at this
      rw [gridFinset_card] at hge
      omega
    obtain ⟨q, hq_grid, hq_not⟩ := Finset.not_subset.mp hnsub
    rw [mem_gridFinset] at hq_grid
    rw [List.mem_toFinset] at hq_not
    obtain ⟨hx0, hx, hy0, hy⟩ := hq_grid
    have hx12 : q.x < 12 := hx
    have hy12 : q.y < 12 := hy
    have hlen_ne : occupied.length ≠ TILE_ROWS.toNat * TILE_COLUMNS.toNat := by
      rw [hconst, ← hcard_len]
      intro hcontra
      have hsub : occupied.toFinset ⊆ gridFinset := by
        intro p hp
        rw [List.mem_toFinset] at hp
        exact mem_gridFinset.mpr (hg p hp)
      have hle2 := Finset.card_le_card hsub
      rw [gridFinset_card, hcontra] at hle2
      have : occupied.toFinset = gridFinset :=
        Finset.eq_of_subset_of_card_le hsub (by rw [gridFinset_card, hcontra])
      exact hne (by rw [this, gridFinset_card])
    have hq_eq :
        (⟨((q.x.toNat : Nat) : Int), ((q.y.toNat : Nat) : Int)⟩ : Pos) = q := by
      have e1 : ((q.x.toNat : Nat) : Int) = q.x := Int.toNat_of_nonneg hx0
      have e2 : ((q.y.toNat : Nat) : Int) = q.y := Int.toNat_of_nonneg hy0
      rw [e1, e2]
    have hgen : generate_food occupied
        [(⟨q.x.toNat, by omega⟩, ⟨q.y.toNat, by omega⟩)] = some q := by
      rw [generate_food, if_neg hlen_ne]
      show (if (⟨((q.x.toNat : Nat) : Int), ((q.y.toNat : Nat) : Int)⟩ : Pos)
          ∈ occupied then generate_food occupied [] else
          some ⟨((q.x.toNat : Nat) : Int), ((q.y.toNat : Nat) : Int)⟩) = some q
      rw [hq_eq, if_neg hq_not]
    rw [hall] at hgen
    exact absurd hgen (by simp)
  · intro hcard samples
    have hlen : occupied.length = TILE_ROWS.toNat * TILE_COLUMNS.toNat := by
      rw [hconst, ← hcard_len]
      exact hcard
    cases samples with
    | nil => rw [generate_food, if_pos hlen]
    | cons s rest => rw [generate_food, if_pos hlen]

/-- Witness for C8 at the empty occupied list. -/
theorem generate_food_spec_witness :
    (∀ samples p, generate_food [] samples = some p → p ∉ ([] : List Pos)) ∧
    ((∀ samples, generate_food [] samples = none) ↔
      ([] : List Pos).toFinset.card = 144) :=
  generate_food_spec [] (by simp) (by simp)

/-- C9: a single `turn` firing never yields the 180° opposite heading;
with a vertical heading only Left/Right edges can change it (no edges on
that axis leave it unchanged), and symmetrically for a horizontal
heading. -/
theorem turn_no_reverse_spec :
    ∀ (i : Input) (d : Direction),
      turnFun i d ≠ opposite d ∧
      ((d = Direction.Up ∨ d = Direction.Down) →
        ((i.left = false ∧ i.right = false) → turnFun i d = d) ∧
        (turnFun i d = d ∨ turnFun i d = Direction.Left ∨
          turnFun i d = Direction.Right)) ∧
      ((d = Direction.Left ∨ d = Direction.Right) →
        ((i.up = false ∧ i.down = false) → turnFun i d = d) ∧
        (turnFun i d = d ∨ turnFun i d = Direction.Up ∨
          turnFun i d = Direction.Down)) := by
  intro i d
  obtain ⟨u, dn, l, r⟩ := i
  cases d <;> cases u <;> cases dn <;> cases l <;> cases r <;> decide

/-- Witness for C9: a Left edge while heading Up does not reverse. -/
theorem turn_no_reverse_spec_witness :
    turnFun leftKey Direction.Up ≠ opposite Direction.Up :=
  (turn_no_reverse_spec leftKey Direction.Up).1

/-- C10: two successive `turn` firings, each with a single perpendicular
key edge, reverse the heading: Up, then an ArrowLeft edge, then an
ArrowDown edge, yields Down; the resulting state is reachable between two
movement ticks, so the heading at a tick can be the reverse of the
heading at the previous tick. -/
theorem turn_double_reversal :
    turnFun leftKey Direction.Up = Direction.Left ∧
    turnFun downKey Direction.Left = Direction.Down ∧
    Direction.Down = opposite Direction.Up ∧
    Reachable T2 ∧
    T2.snake.direction = opposite T0.snake.direction := by
  refine ⟨rfl, rfl, rfl, ?_, rfl⟩
  have r0 : Reachable T0 := Reachable.init sample55 T0 (by decide)
  have r1 : Reachable T1 := Reachable.turnStep leftKey T0 r0
  exact Reachable.turnStep downKey T1 r1

end SnakeGame
